import Mathlib

/-!
Verification of the Scrapex harvester scripts.

This file gives a shallow embedding of the retry / pagination / accumulation
logic of the repository's scrapers and proves (or refutes) the spec's claims
about them:

* `src/Scripts/Semantic_Scrapex.py` — `exponential_backoff_sleep`,
  `fetch_paper_ids` (token-mode pagination with a per-page retry loop over a
  Python `set` accumulator) and the per-batch retry loop of
  `fetch_metadata_batch`.
* `src/Scripts/arXivTest.py` — `ArxivScraper.fetch_year` (offset-mode
  pagination), `ArxivScraper.add_papers` and the trimming step of
  `ArxivScraper.scrape`.
* `src/Scripts/Scrapex.py` — `GoogleScholarScraperRequests.fetch_page`.

Network calls are modelled by an oracle: a finite list of scripted fetch
outcomes, consumed one per HTTP request in program order.  Sleeping and
logging are elided (they do not affect any data computed).  Machine-level
caveat: all the Python numbers involved are ints, so `Nat` is an exact model.
-/

namespace Scrapex

/-! ## Python `set` model

`fetch_paper_ids` accumulates ids in a Python `set` (`query_ids = set()`,
`query_ids.update(ids_page)`, `len(query_ids)`, `list(query_ids)`).

A CPython `set` stores at most one copy of each element; its iteration order
is determined by the hash table layout (hash-slot order), **not** by the
order of insertion.  We model the stored contents as a duplicate-free list
remembering first insertion (this makes the contents, membership and `len`
exact), and model the enumeration `list(s)` as a canonical order computed
from the contents alone — here lexicographic order of the code points —
which captures the essential property of the CPython enumeration: it is a
function of the stored contents and the hash function, never of the
insertion history. -/

/-- Lexicographic comparison of code-point lists (Bool-valued so that it
evaluates by `rfl` and `decide`). -/
def charListLe : List Char → List Char → Bool
  | [], _ => true
  | _ :: _, [] => false
  | a :: as, b :: bs =>
    if a.toNat < b.toNat then true
    else if b.toNat < a.toNat then false
    else charListLe as bs

/-- Lexicographic comparison of strings. -/
def strLe (a b : String) : Bool :=
  charListLe a.data b.data

/-- Insert into a sorted list (insertion-sort step). -/
def strInsert (x : String) : List String → List String
  | [] => [x]
  | y :: ys => if strLe x y then x :: y :: ys else y :: strInsert x ys

/-- Insertion sort by `strLe`. -/
def strSort : List String → List String
  | [] => []
  | x :: xs => strInsert x (strSort xs)

/-- Python `s.update(page)`: add each element of the page that is not yet
present.  (`ids_page` in the source is itself a set, but `update` of a list
with repetitions stores each id once anyway, so a plain list argument is an
exact model.)  Storage keeps first-insertion order: contents, membership
and `len` agree exactly with the Python set. -/
def pySetUpdate (s : List String) (page : List String) : List String :=
  page.foldl (fun acc x => if x ∈ acc then acc else acc ++ [x]) s

/-- Python `list(s)` for a set of strings: the enumeration of the contents
in the canonical (content-determined, insertion-independent) order. -/
def pySetList (s : List String) : List String :=
  strSort s

/-- The distinct elements of a list in order of first occurrence — the
"first-insertion order" that the spec attributes to the accumulator's
snapshot. -/
def firstOccurrences (l : List String) : List String :=
  l.foldl (fun acc x => if x ∈ acc then acc else acc ++ [x]) []

/-- Folding the merge operation over a sequence of pages: the contents of
the accumulator after all merges. -/
def fpMergeAll (batches : List (List String)) : List String :=
  batches.foldl pySetUpdate []

theorem strInsert_perm (x : String) (l : List String) :
    (strInsert x l).Perm (x :: l) := by
  induction l with
  | nil => simp [strInsert]
  | cons y ys ih =>
    by_cases h : strLe x y
    · simp [strInsert, h]
    · simp only [strInsert, h, if_neg, Bool.false_eq_true, not_false_iff]
      exact (ih.cons y).trans (List.Perm.swap x y ys)

theorem strSort_perm (l : List String) : (strSort l).Perm l := by
  induction l with
  | nil => simp [strSort]
  | cons x xs ih =>
    exact (strInsert_perm x (strSort xs)).trans (ih.cons x)

theorem pySetUpdate_append (s : List String) (l1 l2 : List String) :
    pySetUpdate s (l1 ++ l2) = pySetUpdate (pySetUpdate s l1) l2 := by
  simp [pySetUpdate, List.foldl_append]

theorem fpMergeAll_eq_firstOccurrences (batches : List (List String)) :
    fpMergeAll batches = firstOccurrences batches.flatten := by
  suffices h : ∀ (bs : List (List String)) (s : List String),
      bs.foldl pySetUpdate s = pySetUpdate s bs.flatten by
    simpa [fpMergeAll, firstOccurrences, pySetUpdate] using h batches []
  intro bs
  induction bs with
  | nil => intro s; simp [pySetUpdate]
  | cons b bs ih =>
    intro s
    simp only [List.foldl_cons, List.flatten_cons, pySetUpdate_append]
    exact ih (pySetUpdate s b)

theorem pySetUpdate_nodup (s : List String) (page : List String)
    (h : s.Nodup) : (pySetUpdate s page).Nodup := by
  induction page generalizing s with
  | nil => simpa [pySetUpdate] using h
  | cons x xs ih =>
    simp only [pySetUpdate, List.foldl_cons]
    by_cases hx : x ∈ s
    · simpa [pySetUpdate, hx] using ih s h
    · have : (s ++ [x]).Nodup := by
        simp [List.nodup_append, h, hx]
      simpa [pySetUpdate, hx] using ih (s ++ [x]) this

/-! ## Backoff policy (`exponential_backoff_sleep`, Semantic_Scrapex.py 30-37)

The source computes `delay = min(max_delay, base_delay * (2 ** (attempt - 1)))`
and sleeps for that long.  The sleep is a side effect; the computed delay is
the pure content.  All arguments are Python ints at every call site
(`argparse type=int`, defaults 1 and 60), so `Nat` arithmetic is exact. -/

/-- Delay computed by `exponential_backoff_sleep` before sleeping. -/
def exponential_backoff_delay (attempt base_delay max_delay : Nat) : Nat :=
  min max_delay (base_delay * 2 ^ (attempt - 1))

/-! ## Google Scholar page fetch (`GoogleScholarScraperRequests.fetch_page`,
Scrapex.py 125-144)

The source issues `requests.get`; a non-200 status returns `[]`, a
`requests.RequestException` returns `[]`, and otherwise the page body is
handed to `extract_papers`.  The single request is modelled by one scripted
outcome; the extraction function (HTML parsing, out of scope of the claims)
is a parameter, as it touches only the success path. -/

/-- Outcome of the single `requests.get` in `fetch_page`: either the request
raises `requests.RequestException`, or a response arrives with a status code
and a body. -/
inductive GsOutcome where
  | requestError : GsOutcome
  | response (code : Nat) (text : String) : GsOutcome
deriving DecidableEq, Repr

/-- Model of `GoogleScholarScraperRequests.fetch_page` (URL construction,
logging and `random_delay` elided; they do not affect the returned list). -/
def fetch_page {γ : Type} (extract_papers : String → List γ)
    (o : GsOutcome) : List γ :=
  match o with
  | .requestError => []
  | .response code text => if code ≠ 200 then [] else extract_papers text

/-! ## arXiv scraper (`ArxivScraper`, arXivTest.py) -/

/-- Record built by `ArxivScraper.extract_entry`.  Only the identity field
matters to the accumulation claims; the remaining payload fields (title,
abstract, …) are carried opaquely by the `payload` field. -/
structure Paper where
  arxiv_id : String
  payload : String
deriving DecidableEq, Repr

/-- Model of `ArxivScraper.add_papers` (arXivTest.py 106-109): under the
lock, `self.collected.extend(papers)` — a plain list append with no
deduplication.  The lock only serialises calls; the sequential model
composes the calls in order. -/
def add_papers (collected papers : List Paper) : List Paper :=
  collected ++ papers

/-- Model of the trimming step of `ArxivScraper.scrape` (arXivTest.py
186-188): `if len(self.collected) > self.max_results: collected =
collected[:max_results]`. -/
def scrapeTrim (max_results : Nat) (collected : List Paper) : List Paper :=
  if max_results < collected.length then collected.take max_results
  else collected

/-! ## Semantic Scholar id harvest (`fetch_paper_ids`, Semantic_Scrapex.py 40-129)

The source is a pair of nested loops:

```
while len(query_ids) < total_limit_per_query:          # outer page loop
    attempt = 0
    while attempt < max_retries:                        # inner retry loop
        attempt += 1
        <GET with params; token included iff next_token is truthy>
        if response.status_code == 429: backoff; continue
        response.raise_for_status()                     # raises on 4xx/5xx
        next_token = response_json.get("next", None)
        ids_page = {paperId of each item}
        if not ids_page and not next_token: break
        query_ids.update(ids_page)
        if len(query_ids) >= total_limit_per_query: break
        attempt = 0
        if not next_token: break
    except requests.RequestException:
        if attempt < max_retries: backoff       # then loop continues
        else: break
    if attempt == max_retries and len(query_ids) < total_limit_per_query: break
    if not next_token and len(query_ids) < total_limit_per_query: break
return set(list(query_ids)[:total_limit_per_query])
```

Each request consumes one scripted `SSOutcome` from the oracle.  The loops
are compiled to structural recursion on the oracle; the loop-condition
checks of `while attempt < max_retries` are performed at the call sites
(before each re-entry), and the two degenerate initial conditions
(`total_limit_per_query == 0`, `max_retries == 0`) are discharged by the
wrapper, so every re-entry consumes an outcome.  A continuation token that
is the empty string is falsy in Python exactly like `None`; the model
identifies it with `none`. -/

/-- One scripted outcome of `requests.get` on the bulk-search URL: the call
raises `requests.RequestException` (network/transport failure), or a
response arrives with a status code, a page of paper ids (the `paperId`
fields present in `data`) and an optional continuation token (`next`). -/
inductive SSOutcome where
  | transportError : SSOutcome
  | response (code : Nat) (pageIds : List String) (next : Option String) : SSOutcome
deriving DecidableEq, Repr

/-- Exit label recording which break ended the run:
`abandoned` = line 120-122 (retry budget exhausted on the current page),
`exhausted` = line 124-125 (no continuation token before the target),
`reachedLimit` = the outer `while` condition became false (target met),
`stalled` = the scripted oracle ran out while the loop wanted another
request (model boundary; an infinite run in Python). -/
inductive SSStatus where
  | abandoned : SSStatus
  | exhausted : SSStatus
  | reachedLimit : SSStatus
  | stalled : SSStatus
deriving DecidableEq, Repr

/-- Result of a run of `fetch_paper_ids`: the returned ids
(`set(list(query_ids)[:total_limit_per_query])` — enumeration of the set,
truncated), the exit label, and the trace of requests made, each recorded
as the token it carried (`none` for the initial token-less request). -/
structure SSRun where
  ids : List String
  exitLabel : SSStatus
  trace : List (Option String)
deriving DecidableEq, Repr

/-- Prepend the token of the request just issued to a run's trace. -/
def fpCons (t : Option String) (r : SSRun) : SSRun :=
  ⟨r.ids, r.exitLabel, t :: r.trace⟩

/-- Lines 120-125 plus the outer `while` condition, evaluated after the
inner retry loop ends: `some label` ends the function with that label,
`none` re-enters the outer loop (next page, `attempt = 0`). -/
def fpExitCheck (limit maxR : Nat) (token : Option String)
    (ids : List String) (attempt : Nat) : Option SSStatus :=
  if attempt = maxR ∧ ids.length < limit then some .abandoned
  else if token = none ∧ ids.length < limit then some .exhausted
  else if ids.length < limit then none
  else some .reachedLimit

/-- The value returned at every exit of `fetch_paper_ids` (line 129):
enumeration of the accumulated set truncated to the target. -/
def fpFinish (limit : Nat) (ids : List String) (s : SSStatus) : SSRun :=
  ⟨(pySetList ids).take limit, s, []⟩

/-- The nested loops of `fetch_paper_ids`, from the top of an inner-loop
iteration with the `attempt` counter already checked `< maxR` by the
caller.  State: `token` = `next_token`, `ids` = `query_ids` storage,
`attempt` = attempts already made on the current page. -/
def fpInner (limit maxR : Nat) (token : Option String) (ids : List String)
    (attempt : Nat) : List SSOutcome → SSRun
  | [] => fpFinish limit ids .stalled
  | o :: rest =>
    let a1 := attempt + 1
    match o with
    | .transportError =>
      -- requests.get raised: the `except requests.RequestException` branch
      if a1 < maxR then
        fpCons token (fpInner limit maxR token ids a1 rest)
      else
        fpCons token (match fpExitCheck limit maxR token ids a1 with
          | some s => fpFinish limit ids s
          | none => fpInner limit maxR token ids 0 rest)
    | .response code page nxt =>
      if code = 429 then
        -- rate limited: backoff, `continue` (same token, attempt kept)
        if a1 < maxR then
          fpCons token (fpInner limit maxR token ids a1 rest)
        else
          fpCons token (match fpExitCheck limit maxR token ids a1 with
            | some s => fpFinish limit ids s
            | none => fpInner limit maxR token ids 0 rest)
      else if 400 ≤ code ∧ code < 600 then
        -- raise_for_status() raised; caught by the same except branch
        if a1 < maxR then
          fpCons token (fpInner limit maxR token ids a1 rest)
        else
          fpCons token (match fpExitCheck limit maxR token ids a1 with
            | some s => fpFinish limit ids s
            | none => fpInner limit maxR token ids 0 rest)
      else
        -- success path, lines 84-109
        if page = [] ∧ nxt = none then
          -- line 90: break before updating the set
          fpCons token (match fpExitCheck limit maxR nxt ids a1 with
            | some s => fpFinish limit ids s
            | none => fpInner limit maxR nxt ids 0 rest)
        else
          let ids1 := pySetUpdate ids page
          if limit ≤ ids1.length then
            -- line 100: target reached, break
            fpCons token (match fpExitCheck limit maxR nxt ids1 a1 with
              | some s => fpFinish limit ids1 s
              | none => fpInner limit maxR nxt ids1 0 rest)
          else if nxt = none then
            -- line 107: attempt was reset to 0, then break on missing token
            fpCons token (match fpExitCheck limit maxR nxt ids1 0 with
              | some s => fpFinish limit ids1 s
              | none => fpInner limit maxR nxt ids1 0 rest)
          else
            -- next page: attempt reset to 0, token carried verbatim
            fpCons token (fpInner limit maxR nxt ids1 0 rest)

/-- Model of `fetch_paper_ids`.  The wrapper discharges the two initial
loop conditions: a zero target never enters the outer loop (line 60), and
`max_retries = 0` never enters the inner loop, so line 120 breaks at once
with nothing fetched. -/
def fetch_paper_ids (limit maxR : Nat) (oracle : List SSOutcome) : SSRun :=
  if limit = 0 then ⟨[], .reachedLimit, []⟩
  else if maxR = 0 then ⟨[], .abandoned, []⟩
  else fpInner limit maxR none [] 0 oracle

/-- Outcomes on which the request raises `requests.RequestException` or is
rate limited — exactly the outcomes that increment the attempt counter
without touching the accumulator or the token. -/
def ssFailure (o : SSOutcome) : Bool :=
  match o with
  | .transportError => true
  | .response code _ _ => code = 429 || (400 ≤ code && code < 600)

/-- Transient outcomes in the sense of the spec: transport failure or 5xx. -/
def ssTransient (o : SSOutcome) : Bool :=
  match o with
  | .transportError => true
  | .response code _ _ => 500 ≤ code && code < 600

/-- Fatal outcomes in the sense of the spec: a 4xx response other than 429. -/
def ssFatal (o : SSOutcome) : Bool :=
  match o with
  | .transportError => false
  | .response code _ _ => 400 ≤ code && code < 500 && code ≠ 429

/-- Rate-limited outcomes: HTTP 429. -/
def ssRateLimited (o : SSOutcome) : Bool :=
  match o with
  | .transportError => false
  | .response code _ _ => code = 429

/-- Retry-budget lemma: while every scripted outcome raises or is rate
limited, each request increments `attempt`, and the run ends `abandoned`
after exactly the `maxR - attempt` requests that remain in the page's
budget, all carrying the unchanged token. -/
theorem fpInner_allFailure (limit maxR : Nat) :
    ∀ (oracle : List SSOutcome) (token : Option String) (ids : List String)
      (attempt : Nat),
      attempt < maxR → ids.length < limit →
      (∀ o ∈ oracle, ssFailure o = true) →
      maxR - attempt ≤ oracle.length →
      fpInner limit maxR token ids attempt oracle =
        ⟨(pySetList ids).take limit, .abandoned,
          List.replicate (maxR - attempt) token⟩ := by
  intro oracle
  induction oracle with
  | nil =>
    intro token ids attempt ha _ _ hlen
    simp only [List.length_nil, Nat.le_zero] at hlen
    omega
  | cons o rest ih =>
    intro token ids attempt ha hshort hfail hlen
    have ho : ssFailure o = true := hfail o (List.mem_cons_self o rest)
    have hrest : ∀ x ∈ rest, ssFailure x = true :=
      fun x hx => hfail x (List.mem_cons_of_mem o hx)
    have hrep : List.replicate (maxR - attempt) token =
        token :: List.replicate (maxR - (attempt + 1)) token := by
      have : maxR - attempt = (maxR - (attempt + 1)) + 1 := by omega
      rw [this, List.replicate_succ]
    by_cases hstep : attempt + 1 < maxR
    · -- budget remains: one more failed attempt, recurse
      have hrec := ih token ids (attempt + 1) hstep hshort hrest (by
        simp only [List.length_cons] at hlen ⊢; omega)
      cases o with
      | transportError =>
        simp only [fpInner, hstep, if_pos, fpCons, hrec, hrep]
      | response code page nxt =>
        simp only [ssFailure] at ho
        rcases Bool.or_eq_true_iff.mp ho with h429 | hrange
        · have : code = 429 := by simpa using h429
          simp only [fpInner, this, if_pos, hstep, fpCons, hrec, hrep]
        · have hr : 400 ≤ code ∧ code < 600 := by
            constructor <;> [skip; skip] <;>
              simp_all [Bool.and_eq_true_iff, decide_eq_true_eq]
          by_cases h429 : code = 429
          · simp only [fpInner, h429, if_pos, hstep, fpCons, hrec, hrep]
          · simp only [fpInner, h429, if_neg, hr, and_self, if_pos, hstep,
              fpCons, hrec, hrep, if_true, ite_self]
    · -- final attempt of the budget: line 120 fires
      have hmax : attempt + 1 = maxR := by omega
      have hcheck : fpExitCheck limit maxR token ids (attempt + 1) =
          some .abandoned := by
        simp [fpExitCheck, hmax, hshort]
      have hrep1 : List.replicate (maxR - attempt) token = [token] := by
        have : maxR - attempt = 1 := by omega
        simp [this]
      cases o with
      | transportError =>
        simp only [fpInner, hstep, if_neg, if_false, hcheck, fpCons,
          fpFinish, hrep1]
      | response code page nxt =>
        simp only [ssFailure] at ho
        rcases Bool.or_eq_true_iff.mp ho with h429 | hrange
        · have : code = 429 := by simpa using h429
          simp only [fpInner, this, if_pos, hstep, if_neg, if_false, hcheck,
            fpCons, fpFinish, hrep1]
        · have hr : 400 ≤ code ∧ code < 600 := by
            constructor <;> [skip; skip] <;>
              simp_all [Bool.and_eq_true_iff, decide_eq_true_eq]
          by_cases h429 : code = 429
          · simp only [fpInner, h429, if_pos, hstep, if_neg, if_false,
              hcheck, fpCons, fpFinish, hrep1]
          · simp only [fpInner, h429, if_neg, hr, and_self, if_true, hstep,
              if_false, hcheck, fpCons, fpFinish, hrep1, ite_self]

/-! ## Semantic Scholar metadata batches (`fetch_metadata_batch`,
Semantic_Scrapex.py 133-206)

For each batch the source runs
`while not batch_successful and attempt < max_retries:` with the same
outcome handling as `fetch_paper_ids`: 429 → backoff and `continue`;
`raise_for_status` / transport errors → `except requests.RequestException`,
backoff while `attempt < max_retries`, otherwise the batch is skipped; a
success appends the batch's valid papers and sets `batch_successful`.
The per-batch loop is modelled below; the response payload is the list of
entries as returned (`None` entries included — the source filters them out
with `p is not None and ... p.get("paperId")`, modelled by `filterMap id`;
the subsequent field extraction is elided as it only reshapes each record). -/

/-- One scripted outcome of the `requests.post` for one metadata batch. -/
inductive FMOutcome where
  | transportError : FMOutcome
  | response (code : Nat) (papers : List (Option String)) : FMOutcome
deriving DecidableEq, Repr

/-- Result of the retry loop for one batch: the records appended to
`all_metadata`, the final `batch_successful` flag, and the number of
attempts made. -/
structure FMRun where
  added : List String
  succeeded : Bool
  attempts : Nat
deriving DecidableEq, Repr

/-- The per-batch retry loop of `fetch_metadata_batch`, entered with
`attempt` attempts already made and the loop condition checked by the
caller. -/
def fmbTryBatch (maxR attempt : Nat) : List FMOutcome → FMRun
  | [] => ⟨[], false, 0⟩
  | o :: rest =>
    let a1 := attempt + 1
    match o with
    | .transportError =>
      if a1 < maxR then
        let r := fmbTryBatch maxR a1 rest
        ⟨r.added, r.succeeded, r.attempts + 1⟩
      else ⟨[], false, 1⟩
    | .response code papers =>
      if code = 429 then
        if a1 < maxR then
          let r := fmbTryBatch maxR a1 rest
          ⟨r.added, r.succeeded, r.attempts + 1⟩
        else ⟨[], false, 1⟩
      else if 400 ≤ code ∧ code < 600 then
        if a1 < maxR then
          let r := fmbTryBatch maxR a1 rest
          ⟨r.added, r.succeeded, r.attempts + 1⟩
        else ⟨[], false, 1⟩
      else ⟨papers.filterMap id, true, 1⟩

/-- One batch of `fetch_metadata_batch`, from `attempt = 0`,
`batch_successful = False`; `max_retries = 0` never enters the loop. -/
def fmb_batch (maxR : Nat) (oracle : List FMOutcome) : FMRun :=
  if maxR = 0 then ⟨[], false, 0⟩ else fmbTryBatch maxR 0 oracle

/-- Failure outcomes of the batch request, mirroring `ssFailure`. -/
def fmFailure (o : FMOutcome) : Bool :=
  match o with
  | .transportError => true
  | .response code _ => code = 429 || (400 ≤ code && code < 600)

/-- Fatal outcomes of the batch request: a 4xx response other than 429. -/
def fmFatal (o : FMOutcome) : Bool :=
  match o with
  | .transportError => false
  | .response code _ => 400 ≤ code && code < 500 && code ≠ 429

/-- Rate-limited outcomes of the batch request. -/
def fmRateLimited (o : FMOutcome) : Bool :=
  match o with
  | .transportError => false
  | .response code _ => code = 429

/-- Retry-budget lemma for the per-batch loop: while every scripted outcome
raises or is rate limited, the loop makes exactly the remaining
`maxR - attempt` attempts, appends nothing, and leaves the batch
unsuccessful (skipped). -/
theorem fmbTryBatch_allFailure (maxR : Nat) :
    ∀ (oracle : List FMOutcome) (attempt : Nat),
      attempt < maxR →
      (∀ o ∈ oracle, fmFailure o = true) →
      maxR - attempt ≤ oracle.length →
      fmbTryBatch maxR attempt oracle = ⟨[], false, maxR - attempt⟩ := by
  intro oracle
  induction oracle with
  | nil =>
    intro attempt ha _ hlen
    simp only [List.length_nil, Nat.le_zero] at hlen
    omega
  | cons o rest ih =>
    intro attempt ha hfail hlen
    have ho : fmFailure o = true := hfail o (List.mem_cons_self o rest)
    have hrest : ∀ x ∈ rest, fmFailure x = true :=
      fun x hx => hfail x (List.mem_cons_of_mem o hx)
    by_cases hstep : attempt + 1 < maxR
    · have hrec := ih (attempt + 1) hstep hrest (by
        simp only [List.length_cons] at hlen ⊢; omega)
      have harith : (maxR - (attempt + 1)) + 1 = maxR - attempt := by omega
      cases o with
      | transportError =>
        simp only [fmbTryBatch, hstep, if_pos, hrec, harith]
      | response code papers =>
        simp only [fmFailure] at ho
        rcases Bool.or_eq_true_iff.mp ho with h429 | hrange
        · have : code = 429 := by simpa using h429
          simp only [fmbTryBatch, this, if_pos, hstep, hrec, harith]
        · have hr : 400 ≤ code ∧ code < 600 := by
            constructor <;> [skip; skip] <;>
              simp_all [Bool.and_eq_true_iff, decide_eq_true_eq]
          by_cases h429 : code = 429
          · simp only [fmbTryBatch, h429, if_pos, hstep, hrec, harith]
          · simp only [fmbTryBatch, h429, if_neg, hr, and_self, if_pos,
              hstep, hrec, harith, if_true, ite_self]
    · have harith : maxR - attempt = 1 := by omega
      cases o with
      | transportError =>
        simp only [fmbTryBatch, hstep, if_neg, if_false, harith]
      | response code papers =>
        simp only [fmFailure] at ho
        rcases Bool.or_eq_true_iff.mp ho with h429 | hrange
        · have : code = 429 := by simpa using h429
          simp only [fmbTryBatch, this, if_pos, hstep, if_neg, if_false,
            harith]
        · have hr : 400 ≤ code ∧ code < 600 := by
            constructor <;> [skip; skip] <;>
              simp_all [Bool.and_eq_true_iff, decide_eq_true_eq]
          by_cases h429 : code = 429
          · simp only [fmbTryBatch, h429, if_pos, hstep, if_neg, if_false,
              harith]
          · simp only [fmbTryBatch, h429, if_neg, hr, and_self, if_true,
              hstep, if_false, harith, ite_self]

theorem ssTransient_failure (o : SSOutcome) (h : ssTransient o = true) :
    ssFailure o = true := by
  cases o with
  | transportError => rfl
  | response code page nxt =>
    simp only [ssTransient, Bool.and_eq_true_iff, decide_eq_true_eq] at h
    simp only [ssFailure, Bool.or_eq_true_iff, Bool.and_eq_true_iff,
      decide_eq_true_eq]
    omega

theorem ssFatal_failure (o : SSOutcome) (h : ssFatal o = true) :
    ssFailure o = true := by
  cases o with
  | transportError => rfl
  | response code page nxt =>
    simp only [ssFatal, Bool.and_eq_true_iff, decide_eq_true_eq] at h
    simp only [ssFailure, Bool.or_eq_true_iff, Bool.and_eq_true_iff,
      decide_eq_true_eq]
    omega

theorem ssRateLimited_failure (o : SSOutcome) (h : ssRateLimited o = true) :
    ssFailure o = true := by
  cases o with
  | transportError => rfl
  | response code page nxt =>
    simp only [ssRateLimited, decide_eq_true_eq] at h
    simp [ssFailure, h]

theorem fmFatal_failure (o : FMOutcome) (h : fmFatal o = true) :
    fmFailure o = true := by
  cases o with
  | transportError => rfl
  | response code papers =>
    simp only [fmFatal, Bool.and_eq_true_iff, decide_eq_true_eq] at h
    simp only [fmFailure, Bool.or_eq_true_iff, Bool.and_eq_true_iff,
      decide_eq_true_eq]
    omega

theorem fmRateLimited_failure (o : FMOutcome) (h : fmRateLimited o = true) :
    fmFailure o = true := by
  cases o with
  | transportError => rfl
  | response code papers =>
    simp only [fmRateLimited, decide_eq_true_eq] at h
    simp [fmFailure, h]

/-- C1: For every page request whose fetch outcome is always a transient
error (network failure / request exception), the per-page retry loop in
`fetch_paper_ids` performs exactly `maxRetries` attempts — never fewer,
never more — and then the job is abandoned (line 120-122) with nothing
collected: the trace shows exactly `maxR` requests, all for the same page
(same token), and the exit label is `abandoned`. -/
theorem fetch_paper_ids_transient_exhausts_budget
    (limit maxR : Nat) (oracle : List SSOutcome)
    (hlimit : 1 ≤ limit) (hmaxR : 1 ≤ maxR)
    (htrans : ∀ o ∈ oracle, ssTransient o = true)
    (hlen : maxR ≤ oracle.length) :
    fetch_paper_ids limit maxR oracle =
      ⟨[], .abandoned, List.replicate maxR none⟩ := by
  have h := fpInner_allFailure limit maxR oracle none [] 0
    (by omega) (by simpa using hlimit)
    (fun o ho => ssTransient_failure o (htrans o ho))
    (by simpa using hlen)
  have hwrap : fetch_paper_ids limit maxR oracle =
      fpInner limit maxR none [] 0 oracle := by
    simp only [fetch_paper_ids]
    rw [if_neg (by omega), if_neg (by omega)]
  rw [hwrap, h]
  simp [pySetList, strSort]

/-- Witness for C1: five transport errors with the default budget of 5. -/
theorem fetch_paper_ids_transient_exhausts_budget_witness :
    fetch_paper_ids 1 5 (List.replicate 5 SSOutcome.transportError) =
      ⟨[], .abandoned, List.replicate 5 none⟩ :=
  fetch_paper_ids_transient_exhausts_budget 1 5
    (List.replicate 5 SSOutcome.transportError)
    (by decide) (by decide) (by decide) (by decide)

/-- C2 counterexample: a first attempt that returns a fatal 404 does NOT
abandon the job.  `raise_for_status()` turns the 404 into a
`requests.RequestException`, which the generic handler retries with
backoff: the trace shows a second request, which here succeeds and fills
the target — the run ends `reachedLimit` with the id collected, not
`abandoned` with zero retries, and likewise the metadata batch loop
retries a 404 and succeeds on the second attempt. -/
theorem fetch_fatal_first_attempt_cex :
    fetch_paper_ids 1 5
        [SSOutcome.response 404 [] none, SSOutcome.response 200 ["a"] none] =
      ⟨["a"], .reachedLimit, [none, none]⟩
    ∧ (fetch_paper_ids 1 5
        [SSOutcome.response 404 [] none,
          SSOutcome.response 200 ["a"] none]).exitLabel ≠ .abandoned
    ∧ fmb_batch 5
        [FMOutcome.response 404 [], FMOutcome.response 200 [some "a"]] =
      ⟨["a"], true, 2⟩ := by
  exact ⟨by decide, by decide, by decide⟩

/-- C2 amended: a fatal response (4xx other than 429) is not distinguished
from a transient error — `raise_for_status()` raises and the generic
`except requests.RequestException` branch retries it with backoff, so a
run of fatal responses abandons the page (respectively skips the metadata
batch) only after exactly `maxRetries` attempts, not immediately. -/
theorem fetch_fatal_retried_like_transient
    (limit maxR : Nat) (oracle : List SSOutcome) (batchOracle : List FMOutcome)
    (hlimit : 1 ≤ limit) (hmaxR : 1 ≤ maxR)
    (hfatal : ∀ o ∈ oracle, ssFatal o = true)
    (hlen : maxR ≤ oracle.length)
    (hbfatal : ∀ o ∈ batchOracle, fmFatal o = true)
    (hblen : maxR ≤ batchOracle.length) :
    fetch_paper_ids limit maxR oracle =
      ⟨[], .abandoned, List.replicate maxR none⟩
    ∧ fmb_batch maxR batchOracle = ⟨[], false, maxR⟩ := by
  constructor
  · have h := fpInner_allFailure limit maxR oracle none [] 0
      (by omega) (by simpa using hlimit)
      (fun o ho => ssFatal_failure o (hfatal o ho))
      (by simpa using hlen)
    have hwrap : fetch_paper_ids limit maxR oracle =
        fpInner limit maxR none [] 0 oracle := by
      simp only [fetch_paper_ids]
      rw [if_neg (by omega), if_neg (by omega)]
    rw [hwrap, h]
    simp [pySetList, strSort]
  · have h := fmbTryBatch_allFailure maxR batchOracle 0 (by omega)
      (fun o ho => fmFatal_failure o (hbfatal o ho)) (by simpa using hblen)
    have hwrap : fmb_batch maxR batchOracle = fmbTryBatch maxR 0 batchOracle := by
      simp only [fmb_batch]
      rw [if_neg (by omega)]
    rw [hwrap, h]
    simp

/-- Witness for the amended C2: five 404 responses exhaust the budget. -/
theorem fetch_fatal_retried_like_transient_witness :
    fetch_paper_ids 1 5 (List.replicate 5 (SSOutcome.response 404 [] none)) =
      ⟨[], .abandoned, List.replicate 5 none⟩
    ∧ fmb_batch 5 (List.replicate 5 (FMOutcome.response 404 [])) =
      ⟨[], false, 5⟩ :=
  fetch_fatal_retried_like_transient 1 5
    (List.replicate 5 (SSOutcome.response 404 [] none))
    (List.replicate 5 (FMOutcome.response 404 []))
    (by decide) (by decide) (by decide) (by decide) (by decide) (by decide)

/-- C3 counterexample: an unbroken run of HTTP 429 outcomes DOES consume
the retry budget and abandons the job on its own.  The 429 branch
increments `attempt` on every iteration (`attempt += 1` runs before the
status check and `continue` keeps the incremented counter), so five
consecutive 429s with `max_retries = 5` end the page at line 120: the run
is `abandoned` with nothing collected even though a success is next in the
script, and the metadata batch loop likewise gives the batch up. -/
theorem fetch_rate_limited_abandons_cex :
    fetch_paper_ids 1 5
        (List.replicate 5 (SSOutcome.response 429 [] none) ++
          [SSOutcome.response 200 ["a"] none]) =
      ⟨[], .abandoned, List.replicate 5 none⟩
    ∧ fmb_batch 5
        (List.replicate 5 (FMOutcome.response 429 []) ++
          [FMOutcome.response 200 [some "a"]]) =
      ⟨[], false, 5⟩ := by
  exact ⟨by decide, by decide⟩

/-- C3 amended: a rate-limited outcome is retried with backoff only while
the attempt counter is below `maxRetries`; rate-limited outcomes consume
the same retry budget as errors, and an unbroken run of `maxRetries` of
them abandons the page (respectively skips the metadata batch) with
nothing collected. -/
theorem fetch_rate_limited_consumes_budget
    (limit maxR : Nat) (oracle : List SSOutcome) (batchOracle : List FMOutcome)
    (hlimit : 1 ≤ limit) (hmaxR : 1 ≤ maxR)
    (hrl : ∀ o ∈ oracle, ssRateLimited o = true)
    (hlen : maxR ≤ oracle.length)
    (hbrl : ∀ o ∈ batchOracle, fmRateLimited o = true)
    (hblen : maxR ≤ batchOracle.length) :
    fetch_paper_ids limit maxR oracle =
      ⟨[], .abandoned, List.replicate maxR none⟩
    ∧ fmb_batch maxR batchOracle = ⟨[], false, maxR⟩ := by
  constructor
  · have h := fpInner_allFailure limit maxR oracle none [] 0
      (by omega) (by simpa using hlimit)
      (fun o ho => ssRateLimited_failure o (hrl o ho))
      (by simpa using hlen)
    have hwrap : fetch_paper_ids limit maxR oracle =
        fpInner limit maxR none [] 0 oracle := by
      simp only [fetch_paper_ids]
      rw [if_neg (by omega), if_neg (by omega)]
    rw [hwrap, h]
    simp [pySetList, strSort]
  · have h := fmbTryBatch_allFailure maxR batchOracle 0 (by omega)
      (fun o ho => fmRateLimited_failure o (hbrl o ho))
      (by simpa using hblen)
    have hwrap : fmb_batch maxR batchOracle = fmbTryBatch maxR 0 batchOracle := by
      simp only [fmb_batch]
      rw [if_neg (by omega)]
    rw [hwrap, h]
    simp

/-- Witness for the amended C3: five 429 responses exhaust the budget. -/
theorem fetch_rate_limited_consumes_budget_witness :
    fetch_paper_ids 1 5 (List.replicate 5 (SSOutcome.response 429 [] none)) =
      ⟨[], .abandoned, List.replicate 5 none⟩
    ∧ fmb_batch 5 (List.replicate 5 (FMOutcome.response 429 [])) =
      ⟨[], false, 5⟩ :=
  fetch_rate_limited_consumes_budget 1 5
    (List.replicate 5 (SSOutcome.response 429 [] none))
    (List.replicate 5 (FMOutcome.response 429 []))
    (by decide) (by decide) (by decide) (by decide) (by decide) (by decide)

/-- C4: for every attempt ≥ 1 and every `baseDelay`/`maxDelay`, the delay
computed by `exponential_backoff_sleep` before sleeping equals
`min(maxDelay, baseDelay * 2 ^ (attempt - 1))`; in particular it never
exceeds `maxDelay` and is non-decreasing in the attempt number. -/
theorem exponential_backoff_delay_spec
    (attempt base_delay max_delay : Nat) (h : 1 ≤ attempt) :
    exponential_backoff_delay attempt base_delay max_delay =
      min max_delay (base_delay * 2 ^ (attempt - 1))
    ∧ exponential_backoff_delay attempt base_delay max_delay ≤ max_delay
    ∧ exponential_backoff_delay attempt base_delay max_delay ≤
        exponential_backoff_delay (attempt + 1) base_delay max_delay := by
  refine ⟨rfl, Nat.min_le_left _ _, ?_⟩
  have hexp : 2 ^ (attempt - 1) ≤ 2 ^ (attempt + 1 - 1) :=
    Nat.pow_le_pow_right (by omega) (by omega)
  exact min_le_min (Nat.le_refl _) (Nat.mul_le_mul_left _ hexp)

/-- Witness for C4 at attempt 3 with the default base 1 and cap 60. -/
theorem exponential_backoff_delay_spec_witness :
    exponential_backoff_delay 3 1 60 = min 60 (1 * 2 ^ (3 - 1))
    ∧ exponential_backoff_delay 3 1 60 ≤ 60
    ∧ exponential_backoff_delay 3 1 60 ≤ exponential_backoff_delay 4 1 60 :=
  exponential_backoff_delay_spec 3 1 60 (by decide)

/-- C10: `GoogleScholarScraperRequests.fetch_page` never raises on an HTTP
or transport failure: a `requests.RequestException` and every non-200
status code alike return the empty list, indistinguishable at the public
interface from a page with no records. -/
theorem fetch_page_failure_empty {γ : Type} (extract_papers : String → List γ)
    (o : GsOutcome)
    (h : o = .requestError ∨ ∃ code text, o = .response code text ∧ code ≠ 200) :
    fetch_page extract_papers o = [] := by
  rcases h with h | ⟨code, text, rfl, hcode⟩
  · subst h; rfl
  · simp [fetch_page, hcode]

/-- Witness for C10: a transport error and a 404 both yield `[]` for a
non-trivial extraction function. -/
theorem fetch_page_failure_empty_witness :
    fetch_page (fun s => [s.length]) GsOutcome.requestError = []
    ∧ fetch_page (fun s => [s.length]) (GsOutcome.response 404 "boom") = [] :=
  ⟨fetch_page_failure_empty (fun s => [s.length]) GsOutcome.requestError
      (Or.inl rfl),
    fetch_page_failure_empty (fun s => [s.length])
      (GsOutcome.response 404 "boom")
      (Or.inr ⟨404, "boom", rfl, by decide⟩)⟩

/-- C7 counterexample: `ArxivScraper.add_papers` is a plain
`collected.extend(papers)` with no deduplication, so merging the same
record (same `arxiv_id`) twice yields two entries for that id — the
accumulated size does increase beyond one entry per id. -/
theorem add_papers_duplicates_cex :
    (add_papers (add_papers [] [⟨"2101.00001", "p"⟩]) [⟨"2101.00001", "p"⟩]).length = 2
    ∧ ((add_papers (add_papers [] [⟨"2101.00001", "p"⟩]) [⟨"2101.00001", "p"⟩]).filter
        (fun q => q.arxiv_id = "2101.00001")).length = 2 := by
  exact ⟨rfl, by decide⟩

/-- C7 amended: the `set`-based accumulator of `fetch_paper_ids` does have
the claimed algebra — its contents stay duplicate-free and equal the
distinct ids ever merged (so its size is the number of distinct ids) —
but `ArxivScraper.add_papers` deduplicates nothing: it appends every
record, so its size grows by the full batch length even for duplicates. -/
theorem accumulator_merge_algebra :
    (∀ batches : List (List String),
      (fpMergeAll batches).Nodup
      ∧ fpMergeAll batches = firstOccurrences batches.flatten
      ∧ (fpMergeAll batches).length = (firstOccurrences batches.flatten).length)
    ∧ (∀ collected papers : List Paper,
      add_papers collected papers = collected ++ papers
      ∧ (add_papers collected papers).length =
          collected.length + papers.length) := by
  constructor
  · intro batches
    refine ⟨?_, fpMergeAll_eq_firstOccurrences batches,
      by rw [fpMergeAll_eq_firstOccurrences batches]⟩
    have : ∀ bs : List (List String), ∀ s : List String,
        s.Nodup → (bs.foldl pySetUpdate s).Nodup := by
      intro bs
      induction bs with
      | nil => intro s hs; simpa using hs
      | cons b bs ih =>
        intro s hs
        exact ih (pySetUpdate s b) (pySetUpdate_nodup s b hs)
    simpa [fpMergeAll] using this batches [] List.nodup_nil
  · intro collected papers
    exact ⟨rfl, by simp [add_papers]⟩

/-- C9 counterexample: the snapshot order of the accumulated `set` is the
content-determined enumeration order of the set, not first-insertion
order.  Merging "b" then "a" gives first-insertion order `["b", "a"]`,
yet the enumeration of the resulting set is identical to the one obtained
by merging "a" then "b" — the set value retains no insertion history —
and differs from the first-insertion order. -/
theorem pySet_snapshot_not_insertion_order_cex :
    firstOccurrences ["b", "a"] = ["b", "a"]
    ∧ pySetList (pySetUpdate [] ["b", "a"]) =
        pySetList (pySetUpdate [] ["a", "b"])
    ∧ pySetList (pySetUpdate [] ["b", "a"]) ≠ ["b", "a"] := by
  exact ⟨by decide, by decide, by decide⟩

/-- C9 amended: the enumeration handed to the output step (line 129's
`list(query_ids)` and `fetch_metadata_batch`'s `list(paper_ids)`) contains
each accumulated id exactly once — it is a permutation of the distinct ids
in first-insertion order — but the order itself is the set's
content-determined iteration order, not first-insertion order, so the
output ordering is not the merge ordering. -/
theorem pySet_snapshot_perm_first_insertion :
    ∀ batches : List (List String),
      (pySetList (fpMergeAll batches)).Perm (firstOccurrences batches.flatten)
      ∧ (pySetList (fpMergeAll batches)).length =
          (firstOccurrences batches.flatten).length := by
  intro batches
  have h : (pySetList (fpMergeAll batches)).Perm (fpMergeAll batches) :=
    strSort_perm (fpMergeAll batches)
  have h2 : (fpMergeAll batches).Perm (firstOccurrences batches.flatten) := by
    rw [fpMergeAll_eq_firstOccurrences]
  exact ⟨h.trans h2, (h.trans h2).length_eq⟩

/-- Every exit of the fetch loop returns at most `limit` ids: each
terminal value is `list(query_ids)[:limit]`. -/
theorem fpInner_ids_le_limit (limit maxR : Nat) :
    ∀ (oracle : List SSOutcome) (token : Option String) (ids : List String)
      (attempt : Nat),
      (fpInner limit maxR token ids attempt oracle).ids.length ≤ limit := by
  intro oracle
  induction oracle with
  | nil =>
    intro token ids attempt
    simp [fpInner, fpFinish, List.length_take]
  | cons o rest ih =>
    intro token ids attempt
    have hfin : ∀ (s : SSStatus) (l : List String),
        (fpFinish limit l s).ids.length ≤ limit := by
      intro s l
      simp [fpFinish, List.length_take]
    cases o with
    | transportError =>
      simp only [fpInner]
      split
      · simpa [fpCons] using ih token ids (attempt + 1)
      · simp only [fpCons]
        split
        · apply hfin
        · simpa using ih token ids 0
    | response code page nxt =>
      simp only [fpInner]
      split
      · -- 429
        split
        · simpa [fpCons] using ih token ids (attempt + 1)
        · simp only [fpCons]
          split
          · apply hfin
          · simpa using ih token ids 0
      · split
        · -- raise_for_status
          split
          · simpa [fpCons] using ih token ids (attempt + 1)
          · simp only [fpCons]
            split
            · apply hfin
            · simpa using ih token ids 0
        · -- success
          split
          · simp only [fpCons]
            split
            · apply hfin
            · simpa using ih nxt ids 0
          · split
            · simp only [fpCons]
              split
              · apply hfin
              · simpa using ih nxt (pySetUpdate ids page) 0
            · split
              · simp only [fpCons]
                split
                · apply hfin
                · simpa using ih nxt (pySetUpdate ids page) 0
              · simpa [fpCons] using ih nxt (pySetUpdate ids page) 0

/-- C8: the collections finally returned never exceed the requested target.
`fetch_paper_ids` truncates its returned set to `total_limit_per_query`
ids for every oracle — even when the last merged page overshoots the
bound — and the trim step of `ArxivScraper.scrape` leaves at most
`max_results` records. -/
theorem harvest_results_bounded :
    (∀ (limit maxR : Nat) (oracle : List SSOutcome),
      (fetch_paper_ids limit maxR oracle).ids.length ≤ limit)
    ∧ (∀ (max_results : Nat) (collected : List Paper),
      collected.length ≤ max_results ∨
        (scrapeTrim max_results collected).length ≤ max_results) := by
  constructor
  · intro limit maxR oracle
    by_cases h0 : limit = 0
    · simp [fetch_paper_ids, h0]
    · by_cases h1 : maxR = 0
      · simp [fetch_paper_ids, h0, h1]
      · simpa [fetch_paper_ids, h0, h1] using
          fpInner_ids_le_limit limit maxR oracle none [] 0
  · intro max_results collected
    right
    by_cases h : max_results < collected.length
    · simp [scrapeTrim, h, List.length_take]
    · simp only [scrapeTrim, h, if_neg, if_false]
      omega

/-! ## arXiv offset pagination (`ArxivScraper.fetch_year`, arXivTest.py
122-160)

The source loop:

```
start = 0; batch_size = 100
while True:
    <GET with params start, max_results=batch_size>
    if feed.status != 200: break
    entries = feed.entries
    if not entries: break
    for entry in entries: year_papers.append(extract_entry(entry))
    if len(entries) < batch_size: break
    start += batch_size
    random_delay()
```

One scripted outcome is consumed per request; the feed entries are opaque
values of a type parameter handed to `extract_entry` (whose field-by-field
parsing is outside the pagination claims). -/

/-- One scripted outcome of `feedparser.parse` in `fetch_year`: either the
feed carries a non-200 status, or a list of entries. -/
inductive AxOutcome (α : Type) where
  | badStatus (code : Nat) : AxOutcome α
  | entries (es : List α) : AxOutcome α
deriving DecidableEq, Repr

/-- Which break ended `fetch_year`'s loop: a non-200 feed status, a short
or empty page (the source's two exhaustion breaks), or the scripted oracle
running out while the loop wanted another request (an endless run of full
pages in Python). -/
inductive AxStop where
  | httpError : AxStop
  | exhausted : AxStop
  | stalled : AxStop
deriving DecidableEq, Repr

/-- Result of a `fetch_year` run: the papers collected in order, the break
that ended the loop, and the trace of `start` offsets requested. -/
structure AxRun (β : Type) where
  papers : List β
  stop : AxStop
  trace : List Nat
deriving DecidableEq

/-- The `while True` loop of `fetch_year`, parameterized by the extraction
function and the page size (`batch_size`, always 100 in the source), from
a given `start` offset. -/
def fetchYearLoop {α β : Type} (extract_entry : α → β) (batchSize : Nat) :
    Nat → List (AxOutcome α) → AxRun β
  | _, [] => ⟨[], .stalled, []⟩
  | start, o :: rest =>
    match o with
    | .badStatus _ => ⟨[], .httpError, [start]⟩
    | .entries es =>
      if es.isEmpty then ⟨[], .exhausted, [start]⟩
      else if es.length < batchSize then ⟨es.map extract_entry, .exhausted, [start]⟩
      else
        let r := fetchYearLoop extract_entry batchSize (start + batchSize) rest
        ⟨es.map extract_entry ++ r.papers, r.stop, start :: r.trace⟩

/-- Model of `ArxivScraper.fetch_year`: offset 0, page size 100. -/
def fetch_year {α β : Type} (extract_entry : α → β)
    (oracle : List (AxOutcome α)) : AxRun β :=
  fetchYearLoop extract_entry 100 0 oracle

/-- While every scripted page is full (exactly `batchSize = 100` entries),
the loop requests offsets `start, start+100, start+200, …`, collects every
entry, and continues with whatever the script holds next. -/
theorem fetchYearLoop_full_pages {α β : Type} (extract_entry : α → β)
    (full : List (List α)) :
    ∀ (start : Nat) (rest : List (AxOutcome α)),
      (∀ es ∈ full, es.length = 100) →
      fetchYearLoop extract_entry 100 start
          (full.map AxOutcome.entries ++ rest) =
        ⟨full.flatten.map extract_entry ++
            (fetchYearLoop extract_entry 100 (start + 100 * full.length) rest).papers,
          (fetchYearLoop extract_entry 100 (start + 100 * full.length) rest).stop,
          (List.range full.length).map (fun i => start + 100 * i) ++
            (fetchYearLoop extract_entry 100 (start + 100 * full.length) rest).trace⟩ := by
  induction full with
  | nil =>
    intro start rest _
    simp
  | cons es full ih =>
    intro start rest hfull
    have hes : es.length = 100 := hfull es (List.mem_cons_self es full)
    have hne : es.isEmpty = false := by
      cases es with
      | nil => simp at hes
      | cons a as => rfl
    have hnlt : ¬es.length < 100 := by omega
    have hrest : ∀ x ∈ full, x.length = 100 :=
      fun x hx => hfull x (List.mem_cons_of_mem es hx)
    have ihs := ih (start + 100) rest hrest
    have harith : start + 100 + 100 * full.length =
        start + 100 * (full.length + 1) := by ring
    rw [harith] at ihs
    simp only [List.map_cons, List.cons_append, fetchYearLoop, hne,
      Bool.false_eq_true, if_false, hnlt, List.append_eq]
    rw [ihs]
    simp only [AxRun.mk.injEq, List.length_cons]
    refine ⟨by simp, trivial, ?_⟩
    rw [List.range_succ_eq_map, List.map_cons, List.map_map, List.cons_append]
    have hzero : start + 100 * 0 = start := by ring
    rw [hzero]
    congr 1
    congr 1
    apply List.map_congr_left
    intro i _
    simp only [Function.comp_apply, Nat.succ_eq_add_one]
    ring

/-- C6: in `fetch_year` the offset starts at 0 and advances by exactly the
page size (100) after every successful full page; the loop takes an
exhaustion break exactly at the first successful fetch that returns fewer
than `batch_size` records (zero included), keeping that page's records —
and while full pages keep arriving it never signals exhaustion (here it
consumes the whole script and stalls, i.e. asks for yet another page). -/
theorem fetch_year_offset_pagination {α β : Type} (extract_entry : α → β)
    (full : List (List α)) (lastPage : List α)
    (hfull : ∀ es ∈ full, es.length = 100) (hlast : lastPage.length < 100) :
    fetch_year extract_entry
        (full.map AxOutcome.entries ++ [AxOutcome.entries lastPage]) =
      ⟨full.flatten.map extract_entry ++ lastPage.map extract_entry,
        .exhausted, (List.range (full.length + 1)).map (fun i => 100 * i)⟩
    ∧ fetch_year extract_entry (full.map AxOutcome.entries) =
      ⟨full.flatten.map extract_entry, .stalled,
        (List.range full.length).map (fun i => 100 * i)⟩ := by
  constructor
  · have h := fetchYearLoop_full_pages extract_entry full 0
      [AxOutcome.entries lastPage] hfull
    have hlastrun : fetchYearLoop extract_entry 100 (0 + 100 * full.length)
        [AxOutcome.entries lastPage] =
        ⟨lastPage.map extract_entry, .exhausted, [100 * full.length]⟩ := by
      by_cases hemp : lastPage.isEmpty
      · have : lastPage = [] := List.isEmpty_iff.mp hemp
        subst this
        simp [fetchYearLoop]
      · have hemp' : lastPage.isEmpty = false := by
          simpa using hemp
        simp [fetchYearLoop, hemp', hlast]
    rw [fetch_year, h, hlastrun]
    simp only [AxRun.mk.injEq]
    refine ⟨trivial, trivial, ?_⟩
    rw [List.range_succ, List.map_append]
    simp
  · have h := fetchYearLoop_full_pages extract_entry full 0 [] hfull
    simp only [List.append_nil, fetchYearLoop] at h
    rw [fetch_year, h]
    simp

/-- Witness for C6: one full page of 100 entries followed by a short page
of 2 entries exhausts at offsets 0 and 100; two full pages alone never
exhaust. -/
theorem fetch_year_offset_pagination_witness :
    fetch_year (fun n : Nat => n)
        ([List.replicate 100 7].map AxOutcome.entries ++
          [AxOutcome.entries [1, 2]]) =
      ⟨(List.replicate 100 7).map (fun n => n) ++ [1, 2], .exhausted,
        (List.range 2).map (fun i => 100 * i)⟩
    ∧ fetch_year (fun n : Nat => n)
        ([List.replicate 100 7].map AxOutcome.entries) =
      ⟨(List.replicate 100 7).map (fun n => n), .stalled,
        (List.range 1).map (fun i => 100 * i)⟩ := by
  have h := fetch_year_offset_pagination (fun n : Nat => n)
    [List.replicate 100 7] [1, 2] (by decide) (by decide)
  simpa using h

/-! ## Token-mode pagination of `fetch_paper_ids` (claim C5)

The trace of a run records the token carried by each request.  The token
of request `i+1` is determined by request `i`'s outcome: unchanged if the
request failed or was rate limited (the page is retried with the same
token), and the `next` field of the response — verbatim — if it
succeeded.  `TokenChain` states exactly this relation between a run's
trace and the scripted outcomes, starting from the initial token. -/

/-- Outcomes on which the success path (lines 84-109) runs: not a 429 and
not a status that `raise_for_status()` rejects. -/
def ssSuccess (o : SSOutcome) : Bool :=
  match o with
  | .transportError => false
  | .response code _ _ => !(code = 429 || (400 ≤ code && code < 600))

/-- Successful outcomes that carry no continuation token. -/
def ssTokenlessSuccess (o : SSOutcome) : Bool :=
  match o with
  | .transportError => false
  | .response code _ nxt =>
    (!(code = 429 || (400 ≤ code && code < 600))) && nxt.isNone

/-- The token the loop will carry after consuming outcome `o` while
holding token `cur`: unchanged on failure or rate limit, the response's
`next` field on success. -/
def tokenAfter (cur : Option String) (o : SSOutcome) : Option String :=
  match o with
  | .transportError => cur
  | .response code _ nxt =>
    if code = 429 then cur
    else if 400 ≤ code ∧ code < 600 then cur
    else nxt

/-- The trace `ts` is a valid token chain for the scripted outcomes `os`
starting from token `tok`: the first request carries `tok`, and each
subsequent request carries `tokenAfter` of the previous request's token
and outcome.  A trace longer than the script is impossible. -/
def TokenChain (tok : Option String) : List (Option String) → List SSOutcome → Prop
  | [], _ => True
  | _ :: _, [] => False
  | t :: ts, o :: os => t = tok ∧ TokenChain (tokenAfter tok o) ts os

theorem fpExitCheck_none_token (limit maxR : Nat) (ids : List String)
    (attempt : Nat) :
    fpExitCheck limit maxR none ids attempt ≠ none := by
  simp only [fpExitCheck]
  split
  · exact Option.some_ne_none _
  · split
    · exact Option.some_ne_none _
    · split
      · next h2 h3 => exact absurd ⟨by simp, h3⟩ h2
      · exact Option.some_ne_none _

theorem fpExitCheck_at_maxR (limit maxR : Nat) (token : Option String)
    (ids : List String) :
    fpExitCheck limit maxR token ids maxR ≠ none := by
  simp only [fpExitCheck]
  split
  · exact Option.some_ne_none _
  · next h1 =>
    split
    · exact Option.some_ne_none _
    · split
      · next h3 => exact absurd ⟨by simp, h3⟩ h1
      · exact Option.some_ne_none _

theorem fpExitCheck_at_maxR_not_exhausted (limit maxR : Nat)
    (token : Option String) (ids : List String) :
    fpExitCheck limit maxR token ids maxR ≠ some .exhausted := by
  simp only [fpExitCheck]
  split
  · simp
  · next h1 =>
    split
    · next h2 => exact absurd ⟨by simp, h2.2⟩ h1
    · split
      · next h3 => exact absurd ⟨by simp, h3⟩ h1
      · simp

theorem fpExitCheck_not_short (limit maxR : Nat) (token : Option String)
    (ids : List String) (attempt : Nat) (h : ¬ids.length < limit) :
    fpExitCheck limit maxR token ids attempt = some .reachedLimit := by
  simp only [fpExitCheck]
  rw [if_neg (by tauto), if_neg (by tauto), if_neg h]

/-- The trace of any run of the fetch loop is a valid token chain for the
scripted outcomes, starting from the current token. -/
theorem fpInner_tokenChain (limit maxR : Nat) :
    ∀ (oracle : List SSOutcome) (token : Option String) (ids : List String)
      (attempt : Nat),
      TokenChain token (fpInner limit maxR token ids attempt oracle).trace oracle := by
  intro oracle
  induction oracle with
  | nil =>
    intro token ids attempt
    simp [fpInner, fpFinish, TokenChain]
  | cons o rest ih =>
    intro token ids attempt
    cases o with
    | transportError =>
      have hta : tokenAfter token SSOutcome.transportError = token := rfl
      simp only [fpInner]
      split
      · simpa [fpCons, TokenChain, hta] using ih token ids (attempt + 1)
      · simp only [fpCons]
        split
        · simp [fpFinish, TokenChain, hta]
        · simpa [TokenChain, hta] using ih token ids 0
    | response code page nxt =>
      simp only [fpInner]
      split
      · next h429 =>
        have hta : tokenAfter token (SSOutcome.response code page nxt) =
            token := by
          simp [tokenAfter, h429]
        split
        · simpa [fpCons, TokenChain, hta] using ih token ids (attempt + 1)
        · simp only [fpCons]
          split
          · simp [fpFinish, TokenChain, hta]
          · simpa [TokenChain, hta] using ih token ids 0
      · next h429 =>
        split
        · next hrange =>
          have hta : tokenAfter token (SSOutcome.response code page nxt) =
              token := by
            simp [tokenAfter, h429, hrange]
          split
          · simpa [fpCons, TokenChain, hta] using ih token ids (attempt + 1)
          · simp only [fpCons]
            split
            · simp [fpFinish, TokenChain, hta]
            · simpa [TokenChain, hta] using ih token ids 0
        · next hrange =>
          have hta : tokenAfter token (SSOutcome.response code page nxt) =
              nxt := by
            simp [tokenAfter, h429, hrange]
          split
          · simp only [fpCons]
            split
            · simp [fpFinish, TokenChain, hta]
            · simpa [TokenChain, hta] using ih nxt ids 0
          · split
            · simp only [fpCons]
              split
              · simp [fpFinish, TokenChain, hta]
              · simpa [TokenChain, hta] using ih nxt (pySetUpdate ids page) 0
            · split
              · simp only [fpCons]
                split
                · simp [fpFinish, TokenChain, hta]
                · simpa [TokenChain, hta] using ih nxt (pySetUpdate ids page) 0
              · simpa [fpCons, TokenChain, hta] using
                  ih nxt (pySetUpdate ids page) 0

/-- Once a request succeeds with no continuation token, the loop stops: if
the `i`-th scripted outcome is a tokenless success and the run reaches it,
the run makes exactly `i + 1` requests — no page is requested after
exhaustion. -/
theorem fpInner_tokenless_stops (limit maxR : Nat) :
    ∀ (oracle : List SSOutcome) (token : Option String) (ids : List String)
      (attempt i : Nat) (o : SSOutcome),
      oracle[i]? = some o → ssTokenlessSuccess o = true →
      i < (fpInner limit maxR token ids attempt oracle).trace.length →
      (fpInner limit maxR token ids attempt oracle).trace.length = i + 1 := by
  intro oracle
  induction oracle with
  | nil =>
    intro token ids attempt i o hget
    simp at hget
  | cons o2 rest ih =>
    intro token ids attempt i o hget hts
    cases i with
    | zero =>
      rw [List.getElem?_cons_zero] at hget
      have ho : o2 = o := by injection hget
      subst ho
      cases o2 with
      | transportError => simp [ssTokenlessSuccess] at hts
      | response code page nxt =>
        simp only [ssTokenlessSuccess, Bool.and_eq_true_iff,
          Bool.not_eq_true', Bool.or_eq_false_iff, decide_eq_false_iff_not,
          Bool.and_eq_false_iff, Option.isNone_iff_eq_none] at hts
        obtain ⟨⟨h429, hrange⟩, hnone⟩ := hts
        subst hnone
        have hrange' : ¬(400 ≤ code ∧ code < 600) := by
          rcases hrange with h | h
          · intro hc; exact h hc.1
          · intro hc; exact h hc.2
        simp only [fpInner, h429, if_neg, if_false, hrange', ite_false]
        split
        · -- page = [] ∧ none = none
          cases hc : fpExitCheck limit maxR none ids (attempt + 1) with
          | none => exact absurd hc (fpExitCheck_none_token limit maxR ids _)
          | some s =>
            intro _
            simp [fpCons, fpFinish, hc]
        · split
          · cases hc : fpExitCheck limit maxR none (pySetUpdate ids page)
              (attempt + 1) with
            | none =>
              exact absurd hc (fpExitCheck_none_token limit maxR _ _)
            | some s =>
              intro _
              simp [fpCons, fpFinish, hc]
          · simp only [if_pos]
            cases hc : fpExitCheck limit maxR none (pySetUpdate ids page) 0 with
            | none =>
              exact absurd hc (fpExitCheck_none_token limit maxR _ _)
            | some s =>
              intro _
              simp [fpCons, fpFinish, hc]
    | succ i =>
      rw [List.getElem?_cons_succ] at hget
      cases o2 with
      | transportError =>
        simp only [fpInner]
        split
        · intro hlt
          simp only [fpCons, List.length_cons] at hlt ⊢
          have := ih token ids (attempt + 1) i o hget hts (by omega)
          omega
        · simp only [fpCons]
          split
          · intro hlt
            simp only [fpFinish, List.length_cons, List.length_nil] at hlt
            omega
          · intro hlt
            simp only [List.length_cons] at hlt ⊢
            have := ih token ids 0 i o hget hts (by omega)
            omega
      | response code page nxt =>
        simp only [fpInner]
        split
        · split
          · intro hlt
            simp only [fpCons, List.length_cons] at hlt ⊢
            have := ih token ids (attempt + 1) i o hget hts (by omega)
            omega
          · simp only [fpCons]
            split
            · intro hlt
              simp only [fpFinish, List.length_cons, List.length_nil] at hlt
              omega
            · intro hlt
              simp only [List.length_cons] at hlt ⊢
              have := ih token ids 0 i o hget hts (by omega)
              omega
        · split
          · split
            · intro hlt
              simp only [fpCons, List.length_cons] at hlt ⊢
              have := ih token ids (attempt + 1) i o hget hts (by omega)
              omega
            · simp only [fpCons]
              split
              · intro hlt
                simp only [fpFinish, List.length_cons, List.length_nil] at hlt
                omega
              · intro hlt
                simp only [List.length_cons] at hlt ⊢
                have := ih token ids 0 i o hget hts (by omega)
                omega
          · split
            · simp only [fpCons]
              split
              · intro hlt
                simp only [fpFinish, List.length_cons, List.length_nil] at hlt
                omega
              · intro hlt
                simp only [List.length_cons] at hlt ⊢
                have := ih nxt ids 0 i o hget hts (by omega)
                omega
            · split
              · simp only [fpCons]
                split
                · intro hlt
                  simp only [fpFinish, List.length_cons, List.length_nil] at hlt
                  omega
                · intro hlt
                  simp only [List.length_cons] at hlt ⊢
                  have := ih nxt (pySetUpdate ids page) 0 i o hget hts (by omega)
                  omega
              · split
                · simp only [fpCons]
                  split
                  · intro hlt
                    simp only [fpFinish, List.length_cons, List.length_nil] at hlt
                    omega
                  · intro hlt
                    simp only [List.length_cons] at hlt ⊢
                    have := ih nxt (pySetUpdate ids page) 0 i o hget hts (by omega)
                    omega
                · intro hlt
                  simp only [fpCons, List.length_cons] at hlt ⊢
                  have := ih nxt (pySetUpdate ids page) 0 i o hget hts (by omega)
                  omega

/-- If a run ends with the `exhausted` label (line 124-125 or the missing
token observed right after a success), then the last request consumed was
a success carrying no continuation token. -/
theorem fpInner_exhausted_last (limit maxR : Nat) :
    ∀ (oracle : List SSOutcome) (token : Option String) (ids : List String)
      (attempt : Nat),
      attempt < maxR →
      (fpInner limit maxR token ids attempt oracle).exitLabel = .exhausted →
      ∃ k o, (fpInner limit maxR token ids attempt oracle).trace.length = k + 1
        ∧ oracle[k]? = some o ∧ ssTokenlessSuccess o = true := by
  intro oracle
  induction oracle with
  | nil =>
    intro token ids attempt _ hlab
    simp [fpInner, fpFinish] at hlab
  | cons o rest ih =>
    intro token ids attempt ha hlab
    cases o with
    | transportError =>
      revert hlab
      simp only [fpInner]
      split
      · next hstep =>
        intro hlab
        simp only [fpCons] at hlab ⊢
        obtain ⟨k, o2, hlen, hget, hts⟩ :=
          ih token ids (attempt + 1) hstep hlab
        exact ⟨k + 1, o2, by simp [hlen], by simpa using hget, hts⟩
      · next hstep =>
        have hmax : attempt + 1 = maxR := by omega
        split
        · next s heq =>
          intro hlab
          simp only [fpCons, fpFinish] at hlab
          rw [hmax] at heq
          rw [hlab] at heq
          exact absurd heq (fpExitCheck_at_maxR_not_exhausted limit maxR token ids)
        · next heq =>
          rw [hmax] at heq
          exact absurd heq (fpExitCheck_at_maxR limit maxR token ids)
    | response code page nxt =>
      revert hlab
      simp only [fpInner]
      split
      · -- 429
        split
        · next hstep =>
          intro hlab
          simp only [fpCons] at hlab ⊢
          obtain ⟨k, o2, hlen, hget, hts⟩ :=
            ih token ids (attempt + 1) hstep hlab
          exact ⟨k + 1, o2, by simp [hlen], by simpa using hget, hts⟩
        · next hstep =>
          have hmax : attempt + 1 = maxR := by omega
          split
          · next s heq =>
            intro hlab
            simp only [fpCons, fpFinish] at hlab
            rw [hmax] at heq
            rw [hlab] at heq
            exact absurd heq
              (fpExitCheck_at_maxR_not_exhausted limit maxR token ids)
          · next heq =>
            rw [hmax] at heq
            exact absurd heq (fpExitCheck_at_maxR limit maxR token ids)
      · next h429 =>
        split
        · -- raise_for_status
          split
          · next hstep =>
            intro hlab
            simp only [fpCons] at hlab ⊢
            obtain ⟨k, o2, hlen, hget, hts⟩ :=
              ih token ids (attempt + 1) hstep hlab
            exact ⟨k + 1, o2, by simp [hlen], by simpa using hget, hts⟩
          · next hstep =>
            have hmax : attempt + 1 = maxR := by omega
            split
            · next s heq =>
              intro hlab
              simp only [fpCons, fpFinish] at hlab
              rw [hmax] at heq
              rw [hlab] at heq
              exact absurd heq
                (fpExitCheck_at_maxR_not_exhausted limit maxR token ids)
            · next heq =>
              rw [hmax] at heq
              exact absurd heq (fpExitCheck_at_maxR limit maxR token ids)
        · next hrange =>
          have htls : nxt = none →
              ssTokenlessSuccess (SSOutcome.response code page nxt) = true := by
            intro hn
            subst hn
            simp only [ssTokenlessSuccess, Option.isNone_none, Bool.and_true,
              Bool.not_eq_true', Bool.or_eq_false_iff,
              decide_eq_false_iff_not, Bool.and_eq_false_iff]
            exact ⟨h429, by omega⟩
          split
          · next hcond =>
            -- line 90 break: empty page and no token
            split
            · next s heq =>
              intro _
              exact ⟨0, SSOutcome.response code page nxt,
                by simp [fpCons, fpFinish], List.getElem?_cons_zero, htls hcond.2⟩
            · next heq =>
              rw [hcond.2] at heq
              exact absurd heq (fpExitCheck_none_token limit maxR ids _)
          · split
            · next hfullcond =>
              -- line 100 break: target reached
              have hns : ¬(pySetUpdate ids page).length < limit := by omega
              split
              · next s heq =>
                intro hlab
                simp only [fpCons, fpFinish] at hlab
                rw [fpExitCheck_not_short limit maxR nxt (pySetUpdate ids page)
                  (attempt + 1) hns] at heq
                rw [hlab] at heq
                simp at heq
              · next heq =>
                rw [fpExitCheck_not_short limit maxR nxt (pySetUpdate ids page)
                  (attempt + 1) hns] at heq
                simp at heq
            · split
              · next hn =>
                -- line 107 break: no continuation token
                split
                · next s heq =>
                  intro _
                  exact ⟨0, SSOutcome.response code page nxt,
                    by simp [fpCons, fpFinish], List.getElem?_cons_zero, htls hn⟩
                · next heq =>
                  rw [hn] at heq
                  exact absurd heq
                    (fpExitCheck_none_token limit maxR (pySetUpdate ids page) _)
              · -- next page with the carried token
                intro hlab
                simp only [fpCons] at hlab ⊢
                obtain ⟨k, o2, hlen, hget, hts⟩ :=
                  ih nxt (pySetUpdate ids page) 0 (by omega) hlab
                exact ⟨k + 1, o2, by simp [hlen], by simpa using hget, hts⟩

/-- C5: token-mode pagination of `fetch_paper_ids`.  (1) The run's request
trace is a token chain: the first request carries no token, a failed or
rate-limited request is retried with the same token, and after a success
the next request carries the response's continuation token verbatim
(`TokenChain`).  (2) If the `i`-th scripted outcome is a success with no
continuation token and the run reaches it, the run makes exactly `i + 1`
requests — once exhausted, no further page is requested.  (3) Conversely a
run that ends with the `exhausted` label consumed, as its last request, a
success carrying no continuation token. -/
theorem fetch_paper_ids_token_pagination (limit maxR : Nat)
    (oracle : List SSOutcome) :
    TokenChain none (fetch_paper_ids limit maxR oracle).trace oracle
    ∧ (∀ i o, oracle[i]? = some o → ssTokenlessSuccess o = true →
        i < (fetch_paper_ids limit maxR oracle).trace.length →
        (fetch_paper_ids limit maxR oracle).trace.length = i + 1)
    ∧ (1 ≤ maxR →
        (fetch_paper_ids limit maxR oracle).exitLabel = .exhausted →
        ∃ k o, (fetch_paper_ids limit maxR oracle).trace.length = k + 1
          ∧ oracle[k]? = some o ∧ ssTokenlessSuccess o = true) := by
  by_cases h0 : limit = 0
  · refine ⟨?_, ?_, ?_⟩
    · simp [fetch_paper_ids, h0, TokenChain]
    · intro i o _ _ hlt
      simp [fetch_paper_ids, h0] at hlt
    · intro _ hlab
      simp [fetch_paper_ids, h0] at hlab
  · by_cases h1 : maxR = 0
    · refine ⟨?_, ?_, ?_⟩
      · simp [fetch_paper_ids, h0, h1, TokenChain]
      · intro i o _ _ hlt
        simp [fetch_paper_ids, h0, h1] at hlt
      · intro hge _
        omega
    · have hwrap : fetch_paper_ids limit maxR oracle =
          fpInner limit maxR none [] 0 oracle := by
        simp only [fetch_paper_ids]
        rw [if_neg h0, if_neg h1]
      rw [hwrap]
      refine ⟨fpInner_tokenChain limit maxR oracle none [] 0, ?_, ?_⟩
      · intro i o hget hts hlt
        exact fpInner_tokenless_stops limit maxR oracle none [] 0 i o
          hget hts hlt
      · intro _ hlab
        exact fpInner_exhausted_last limit maxR oracle none [] 0
          (by omega) hlab

/-- Witness for C5: a single tokenless success at limit 5, budget 3. -/
theorem fetch_paper_ids_token_pagination_witness :
    TokenChain none
        (fetch_paper_ids 5 3 [SSOutcome.response 200 ["a"] none]).trace
        [SSOutcome.response 200 ["a"] none]
    ∧ (fetch_paper_ids 5 3 [SSOutcome.response 200 ["a"] none]).trace.length
        = 0 + 1
    ∧ ∃ k o,
        (fetch_paper_ids 5 3 [SSOutcome.response 200 ["a"] none]).trace.length
          = k + 1
        ∧ [SSOutcome.response 200 ["a"] none][k]? = some o
        ∧ ssTokenlessSuccess o = true :=
  ⟨(fetch_paper_ids_token_pagination 5 3
      [SSOutcome.response 200 ["a"] none]).1,
    (fetch_paper_ids_token_pagination 5 3
      [SSOutcome.response 200 ["a"] none]).2.1 0
      (SSOutcome.response 200 ["a"] none) (by decide) (by decide) (by decide),
    (fetch_paper_ids_token_pagination 5 3
      [SSOutcome.response 200 ["a"] none]).2.2 (by decide) (by decide)⟩

end Scrapex
